import Mathlib

/-!
Verification of the RSA key-material ingestion layer declared in
`src/crypto/nrf_oberon/include/occ_rsa_key.h`.

The header declares the key structures (`occ_rsa1024_pub_key`,
`occ_rsa1024_key`, `occ_rsa1024_crt_key` and their 2048-bit variants) and
the six assembly entry points (`occ_rsa*_init_pub_key`, `occ_rsa*_init_key`,
`occ_rsa*_init_crt_key`).  The structures and the entry-point signatures are
embedded from the header; the bodies of the entry points are not part of the
repository, so their behaviour is modelled from the specification
(big-endian byte import with leading-zero stripping, effective-bit-length
validation, and a raw-capacity check).
-/

/-- A byte, as carried by the `const uint8_t *` buffer parameters. -/
abbrev Byte := Fin 256

/-- Value of a little-endian byte list (least significant byte first). -/
def leVal : List Byte → Nat
  | [] => 0
  | b :: t => b.val + 256 * leVal t

/-- Value of a big-endian byte list, the wire format of every field. -/
def beVal (l : List Byte) : Nat := leVal l.reverse

/-- Modelled from the spec: leading zero bytes of a field buffer are
stripped before the effective bit-length is measured. -/
def stripZeros (l : List Byte) : List Byte := l.dropWhile (fun b => b == 0)

/-- Bit-length of a single byte: position of its most significant set bit. -/
def bitsOfByte (b : Byte) : Nat :=
  if 128 ≤ b.val then 8
  else if 64 ≤ b.val then 7
  else if 32 ≤ b.val then 6
  else if 16 ≤ b.val then 5
  else if 8 ≤ b.val then 4
  else if 4 ≤ b.val then 3
  else if 2 ≤ b.val then 2
  else if 1 ≤ b.val then 1
  else 0

/-- Modelled from the spec: the effective bit-length of a big-endian buffer,
i.e. the position of the most significant set bit of its value, computed
after stripping leading zero bytes. -/
def effBits (l : List Byte) : Nat :=
  match stripZeros l with
  | [] => 0
  | b :: t => 8 * t.length + bitsOfByte b

/-- Modelled from the spec: validation rule for fixed-width fields (moduli
and CRT primes).  The declared byte length may not exceed the maximum
representable for the field, and the effective bit-length must equal the
expected width exactly. -/
def okExact (bits : Nat) (l : List Byte) : Bool :=
  decide (l.length ≤ bits / 8) && decide (effBits l = bits)

/-- Modelled from the spec: validation rule for bounded fields (secret
exponent, CRT exponents, CRT coefficient).  The declared byte length may not
exceed the maximum representable, and the effective bit-length must be at
most the expected width. -/
def okBounded (bits : Nat) (l : List Byte) : Bool :=
  decide (l.length ≤ bits / 8) && decide (effBits l ≤ bits)

/-- Little-endian 32-bit word array of a natural number, `k` words long. -/
def natToWords : Nat → Nat → List Nat
  | 0, _ => []
  | k + 1, v => v % 2 ^ 32 :: natToWords k (v / 2 ^ 32)

/-- Value of a little-endian 32-bit word array. -/
def wordsVal : List Nat → Nat
  | [] => 0
  | w :: t => w + 2 ^ 32 * wordsVal t

/-- Little-endian byte list of a natural number, `n` bytes long. -/
def natToBytesLE : Nat → Nat → List Byte
  | 0, _ => []
  | n + 1, v => (⟨v % 256, Nat.mod_lt _ (by norm_num)⟩ : Byte) :: natToBytesLE n (v / 256)

/-- Modelled from the spec: re-export a word array as `len` big-endian
bytes. -/
def exportBE (len : Nat) (w : List Nat) : List Byte :=
  (natToBytesLE len (wordsVal w)).reverse

/-- A fixed-capacity word array, as a `uint32_t x[k]` struct member. -/
abbrev Words (k : Nat) := {l : List Nat // l.length = k}

theorem natToWords_length : ∀ (k v : Nat), (natToWords k v).length = k := by
  intro k
  induction k with
  | zero => intro v; rfl
  | succ k ih => intro v; simp [natToWords, ih]

/-- Pack a natural number into a fixed-capacity word array. -/
def wordsOf (k v : Nat) : Words k := ⟨natToWords k v, natToWords_length k v⟩

/-- The public RSA exponent, from the header: `#define PUB_EXP 65537`. -/
def PUB_EXP : Nat := 65537

/-- 1024 bit RSA public key: `uint32_t n[32]`, e = 65537 implicit. -/
structure occ_rsa1024_pub_key where
  n : Words 32
deriving DecidableEq

/-- 1024 bit RSA secret key: `uint32_t n[32]; uint32_t d[32]`. -/
structure occ_rsa1024_key where
  n : Words 32
  d : Words 32
deriving DecidableEq

/-- 1024 bit RSA secret key with CRT coefficients:
`uint32_t n[32]; uint32_t p[16], q[16]; uint32_t dp[16], dq[16];
uint32_t qinv[16]`. -/
structure occ_rsa1024_crt_key where
  n : Words 32
  p : Words 16
  q : Words 16
  dp : Words 16
  dq : Words 16
  qinv : Words 16
deriving DecidableEq

/-- 2048 bit RSA public key: `uint32_t n[64]`, e = 65537 implicit. -/
structure occ_rsa2048_pub_key where
  n : Words 64
deriving DecidableEq

/-- 2048 bit RSA secret key: `uint32_t n[64]; uint32_t d[64]`. -/
structure occ_rsa2048_key where
  n : Words 64
  d : Words 64
deriving DecidableEq

/-- 2048 bit RSA secret key with CRT coefficients:
`uint32_t n[64]; uint32_t p[32], q[32]; uint32_t dp[32], dq[32];
uint32_t qinv[32]`. -/
structure occ_rsa2048_crt_key where
  n : Words 64
  p : Words 32
  q : Words 32
  dp : Words 32
  dq : Words 32
  qinv : Words 32
deriving DecidableEq

/-- Modelled from the spec: body of `occ_rsa1024_init_pub_key`, whose
implementation is absent from the repository.  The modulus must be exactly
1024 bits after leading-zero stripping; returns 0 on success and -1 on a
length violation, with no write to the output structure on failure. -/
def occ_rsa1024_init_pub_key (k : occ_rsa1024_pub_key) (n : List Byte) :
    Int × occ_rsa1024_pub_key :=
  if okExact 1024 n then (0, ⟨wordsOf 32 (beVal n)⟩) else (-1, k)

/-- Modelled from the spec: body of `occ_rsa1024_init_key`.  The modulus
must be exactly 1024 bits; the secret exponent at most 1024 bits. -/
def occ_rsa1024_init_key (k : occ_rsa1024_key) (n d : List Byte) :
    Int × occ_rsa1024_key :=
  if okExact 1024 n && okBounded 1024 d then
    (0, ⟨wordsOf 32 (beVal n), wordsOf 32 (beVal d)⟩)
  else (-1, k)

/-- Modelled from the spec: body of `occ_rsa1024_init_crt_key`.  The primes
must be exactly 512 bits; the CRT exponents and coefficient at most 512
bits.  No modulus is supplied; the `n` member is left unpopulated. -/
def occ_rsa1024_init_crt_key (k : occ_rsa1024_crt_key)
    (p q dp dq qinv : List Byte) : Int × occ_rsa1024_crt_key :=
  if okExact 512 p && okExact 512 q && okBounded 512 dp && okBounded 512 dq &&
      okBounded 512 qinv then
    (0, ⟨k.n, wordsOf 16 (beVal p), wordsOf 16 (beVal q), wordsOf 16 (beVal dp),
         wordsOf 16 (beVal dq), wordsOf 16 (beVal qinv)⟩)
  else (-1, k)

/-- Modelled from the spec: body of `occ_rsa2048_init_pub_key`. -/
def occ_rsa2048_init_pub_key (k : occ_rsa2048_pub_key) (n : List Byte) :
    Int × occ_rsa2048_pub_key :=
  if okExact 2048 n then (0, ⟨wordsOf 64 (beVal n)⟩) else (-1, k)

/-- Modelled from the spec: body of `occ_rsa2048_init_key`. -/
def occ_rsa2048_init_key (k : occ_rsa2048_key) (n d : List Byte) :
    Int × occ_rsa2048_key :=
  if okExact 2048 n && okBounded 2048 d then
    (0, ⟨wordsOf 64 (beVal n), wordsOf 64 (beVal d)⟩)
  else (-1, k)

/-- Modelled from the spec: body of `occ_rsa2048_init_crt_key`. -/
def occ_rsa2048_init_crt_key (k : occ_rsa2048_crt_key)
    (p q dp dq qinv : List Byte) : Int × occ_rsa2048_crt_key :=
  if okExact 1024 p && okExact 1024 q && okBounded 1024 dp &&
      okBounded 1024 dq && okBounded 1024 qinv then
    (0, ⟨k.n, wordsOf 32 (beVal p), wordsOf 32 (beVal q), wordsOf 32 (beVal dp),
         wordsOf 32 (beVal dq), wordsOf 32 (beVal qinv)⟩)
  else (-1, k)

theorem leVal_lt : ∀ l : List Byte, leVal l < 256 ^ l.length := by
  intro l
  induction l with
  | nil => simp [leVal]
  | cons b t ih =>
    have hb := b.isLt
    calc b.val + 256 * leVal t < 256 * (leVal t + 1) := by omega
    _ ≤ 256 * 256 ^ t.length := by
        exact Nat.mul_le_mul_left 256 (by omega)
    _ = 256 ^ (b :: t).length := by
        simp [List.length_cons, pow_succ, Nat.mul_comm]

theorem leVal_append : ∀ l1 l2 : List Byte,
    leVal (l1 ++ l2) = leVal l1 + 256 ^ l1.length * leVal l2 := by
  intro l1 l2
  induction l1 with
  | nil => simp [leVal]
  | cons b t ih =>
    rw [List.cons_append]
    show b.val + 256 * leVal (t ++ l2) =
      b.val + 256 * leVal t + 256 ^ (b :: t).length * leVal l2
    rw [ih, List.length_cons, pow_succ]
    ring

theorem beVal_cons (b : Byte) (t : List Byte) :
    beVal (b :: t) = beVal t + 256 ^ t.length * b.val := by
  show leVal (b :: t).reverse = _
  rw [List.reverse_cons, leVal_append, List.length_reverse]
  simp [leVal, beVal]

theorem beVal_lt (l : List Byte) : beVal l < 256 ^ l.length := by
  have := leVal_lt l.reverse
  simpa [beVal, List.length_reverse] using this

theorem beVal_cons_zero (t : List Byte) : beVal ((0 : Byte) :: t) = beVal t := by
  simp [beVal_cons]

theorem stripZeros_cons_zero (t : List Byte) :
    stripZeros ((0 : Byte) :: t) = stripZeros t := by
  simp [stripZeros, List.dropWhile]

theorem beVal_stripZeros : ∀ l : List Byte, beVal (stripZeros l) = beVal l := by
  intro l
  induction l with
  | nil => rfl
  | cons b t ih =>
    by_cases hb : b = 0
    · subst hb
      rw [stripZeros_cons_zero, beVal_cons_zero, ih]
    · have : (b == (0 : Byte)) = false := by
        simpa using hb
      simp [stripZeros, List.dropWhile, this]

theorem effBits_cons_zero (t : List Byte) :
    effBits ((0 : Byte) :: t) = effBits t := by
  simp [effBits, stripZeros_cons_zero]

theorem stripZeros_replicate (m : Nat) :
    stripZeros (List.replicate m (0 : Byte)) = [] := by
  induction m with
  | zero => rfl
  | succ m ih => simpa [List.replicate_succ, stripZeros_cons_zero] using ih

theorem effBits_replicate_zero (m : Nat) :
    effBits (List.replicate m (0 : Byte)) = 0 := by
  simp [effBits, stripZeros_replicate]

theorem bitsOfByte_bounds (b : Byte) (hb : b ≠ 0) :
    2 ^ (bitsOfByte b - 1) ≤ b.val ∧ b.val < 2 ^ bitsOfByte b := by
  have h0 : 1 ≤ b.val := by
    rcases Nat.eq_zero_or_pos b.val with h | h
    · exact absurd (Fin.ext h) hb
    · exact h
  have h1 := b.isLt
  unfold bitsOfByte
  split_ifs <;> norm_num <;> omega

theorem okExact_iff (bits : Nat) (l : List Byte) :
    okExact bits l = true ↔ l.length ≤ bits / 8 ∧ effBits l = bits := by
  simp [okExact]

theorem okBounded_iff (bits : Nat) (l : List Byte) :
    okBounded bits l = true ↔ l.length ≤ bits / 8 ∧ effBits l ≤ bits := by
  simp [okBounded]

theorem wordsVal_natToWords : ∀ (k v : Nat), v < (2 ^ 32) ^ k →
    wordsVal (natToWords k v) = v := by
  intro k
  induction k with
  | zero => intro v hv; simp at hv; simp [natToWords, wordsVal, hv]
  | succ k ih =>
    intro v hv
    have hdiv : v / 2 ^ 32 < (2 ^ 32) ^ k := by
      rw [Nat.div_lt_iff_lt_mul (by positivity)]
      calc v < (2 ^ 32) ^ (k + 1) := hv
      _ = (2 ^ 32) ^ k * 2 ^ 32 := by rw [pow_succ]
    simp only [natToWords, wordsVal, ih _ hdiv]
    omega

theorem natToWords_getLastD : ∀ (k v d : Nat),
    (natToWords (k + 1) v).getLastD d = v / (2 ^ 32) ^ k % 2 ^ 32 := by
  intro k
  induction k with
  | zero => intro v d; simp [natToWords]
  | succ k ih =>
    intro v d
    show (v % 2 ^ 32 :: natToWords (k + 1) (v / 2 ^ 32)).getLastD d = _
    rw [List.getLastD_cons, ih, Nat.div_div_eq_div_mul, ← pow_succ']

theorem natToBytesLE_leVal : ∀ l : List Byte,
    natToBytesLE l.length (leVal l) = l := by
  intro l
  induction l with
  | nil => rfl
  | cons b t ih =>
    have hb := b.isLt
    have h1 : (b.val + 256 * leVal t) % 256 = b.val := by
      rw [Nat.add_mul_mod_self_left, Nat.mod_eq_of_lt hb]
    have h2 : (b.val + 256 * leVal t) / 256 = leVal t := by
      rw [Nat.add_mul_div_left _ _ (by norm_num), Nat.div_eq_of_lt hb,
        Nat.zero_add]
    simp only [List.length_cons, natToBytesLE, leVal]
    congr 1
    · exact Fin.ext h1
    · rw [h2, ih]

theorem ite_fst_zero {α : Type} (c : Bool) (a k : α) :
    ((if c then ((0 : Int), a) else (-1, k)).fst = 0) ↔ c = true := by
  cases c <;> norm_num

theorem ite_fst_cases {α : Type} (c : Bool) (a k : α) :
    (if c then ((0 : Int), a) else (-1, k)).fst = 0 ∨
      (if c then ((0 : Int), a) else (-1, k)).fst = -1 := by
  cases c <;> simp

theorem ite_of_fst_ne {α : Type} (c : Bool) (a k : α)
    (h : (if c then ((0 : Int), a) else (-1, k)).fst ≠ 0) :
    (if c then ((0 : Int), a) else (-1, k)) = (-1, k) := by
  cases c <;> simp_all

theorem fst1024_pub (k : occ_rsa1024_pub_key) (n : List Byte) :
    (occ_rsa1024_init_pub_key k n).fst = 0 ↔
      n.length ≤ 128 ∧ effBits n = 1024 := by
  unfold occ_rsa1024_init_pub_key
  rw [ite_fst_zero, okExact_iff]

theorem fst2048_pub (k : occ_rsa2048_pub_key) (n : List Byte) :
    (occ_rsa2048_init_pub_key k n).fst = 0 ↔
      n.length ≤ 256 ∧ effBits n = 2048 := by
  unfold occ_rsa2048_init_pub_key
  rw [ite_fst_zero, okExact_iff]

theorem fst1024_key (k : occ_rsa1024_key) (n d : List Byte) :
    (occ_rsa1024_init_key k n d).fst = 0 ↔
      n.length ≤ 128 ∧ effBits n = 1024 ∧ d.length ≤ 128 ∧ effBits d ≤ 1024 := by
  unfold occ_rsa1024_init_key
  rw [ite_fst_zero]
  simp only [Bool.and_eq_true, okExact_iff, okBounded_iff, and_assoc]

theorem fst2048_key (k : occ_rsa2048_key) (n d : List Byte) :
    (occ_rsa2048_init_key k n d).fst = 0 ↔
      n.length ≤ 256 ∧ effBits n = 2048 ∧ d.length ≤ 256 ∧ effBits d ≤ 2048 := by
  unfold occ_rsa2048_init_key
  rw [ite_fst_zero]
  simp only [Bool.and_eq_true, okExact_iff, okBounded_iff, and_assoc]

theorem fst1024_crt (k : occ_rsa1024_crt_key) (p q dp dq qi : List Byte) :
    (occ_rsa1024_init_crt_key k p q dp dq qi).fst = 0 ↔
      p.length ≤ 64 ∧ effBits p = 512 ∧ q.length ≤ 64 ∧ effBits q = 512 ∧
      dp.length ≤ 64 ∧ effBits dp ≤ 512 ∧ dq.length ≤ 64 ∧ effBits dq ≤ 512 ∧
      qi.length ≤ 64 ∧ effBits qi ≤ 512 := by
  unfold occ_rsa1024_init_crt_key
  rw [ite_fst_zero]
  simp only [Bool.and_eq_true, okExact_iff, okBounded_iff, and_assoc]

theorem fst2048_crt (k : occ_rsa2048_crt_key) (p q dp dq qi : List Byte) :
    (occ_rsa2048_init_crt_key k p q dp dq qi).fst = 0 ↔
      p.length ≤ 128 ∧ effBits p = 1024 ∧ q.length ≤ 128 ∧ effBits q = 1024 ∧
      dp.length ≤ 128 ∧ effBits dp ≤ 1024 ∧ dq.length ≤ 128 ∧ effBits dq ≤ 1024 ∧
      qi.length ≤ 128 ∧ effBits qi ≤ 1024 := by
  unfold occ_rsa2048_init_crt_key
  rw [ite_fst_zero]
  simp only [Bool.and_eq_true, okExact_iff, okBounded_iff, and_assoc]

theorem code1024_pub (k : occ_rsa1024_pub_key) (n : List Byte) :
    (occ_rsa1024_init_pub_key k n).fst = 0 ∨
      (occ_rsa1024_init_pub_key k n).fst = -1 := by
  unfold occ_rsa1024_init_pub_key
  exact ite_fst_cases _ _ _

theorem code2048_pub (k : occ_rsa2048_pub_key) (n : List Byte) :
    (occ_rsa2048_init_pub_key k n).fst = 0 ∨
      (occ_rsa2048_init_pub_key k n).fst = -1 := by
  unfold occ_rsa2048_init_pub_key
  exact ite_fst_cases _ _ _

theorem code1024_key (k : occ_rsa1024_key) (n d : List Byte) :
    (occ_rsa1024_init_key k n d).fst = 0 ∨
      (occ_rsa1024_init_key k n d).fst = -1 := by
  unfold occ_rsa1024_init_key
  exact ite_fst_cases _ _ _

theorem code2048_key (k : occ_rsa2048_key) (n d : List Byte) :
    (occ_rsa2048_init_key k n d).fst = 0 ∨
      (occ_rsa2048_init_key k n d).fst = -1 := by
  unfold occ_rsa2048_init_key
  exact ite_fst_cases _ _ _

theorem code1024_crt (k : occ_rsa1024_crt_key) (p q dp dq qi : List Byte) :
    (occ_rsa1024_init_crt_key k p q dp dq qi).fst = 0 ∨
      (occ_rsa1024_init_crt_key k p q dp dq qi).fst = -1 := by
  unfold occ_rsa1024_init_crt_key
  exact ite_fst_cases _ _ _

theorem code2048_crt (k : occ_rsa2048_crt_key) (p q dp dq qi : List Byte) :
    (occ_rsa2048_init_crt_key k p q dp dq qi).fst = 0 ∨
      (occ_rsa2048_init_crt_key k p q dp dq qi).fst = -1 := by
  unfold occ_rsa2048_init_crt_key
  exact ite_fst_cases _ _ _

theorem res1024_pub_of_ne (k : occ_rsa1024_pub_key) (n : List Byte)
    (h : ¬(n.length ≤ 128 ∧ effBits n = 1024)) :
    occ_rsa1024_init_pub_key k n = (-1, k) := by
  have hf := fst1024_pub k n
  unfold occ_rsa1024_init_pub_key at hf ⊢
  exact ite_of_fst_ne _ _ _ (fun h0 => h (hf.mp h0))

theorem res2048_pub_of_ne (k : occ_rsa2048_pub_key) (n : List Byte)
    (h : ¬(n.length ≤ 256 ∧ effBits n = 2048)) :
    occ_rsa2048_init_pub_key k n = (-1, k) := by
  have hf := fst2048_pub k n
  unfold occ_rsa2048_init_pub_key at hf ⊢
  exact ite_of_fst_ne _ _ _ (fun h0 => h (hf.mp h0))

theorem res1024_key_of_ne (k : occ_rsa1024_key) (n d : List Byte)
    (h : ¬(n.length ≤ 128 ∧ effBits n = 1024 ∧ d.length ≤ 128 ∧
      effBits d ≤ 1024)) :
    occ_rsa1024_init_key k n d = (-1, k) := by
  have hf := fst1024_key k n d
  unfold occ_rsa1024_init_key at hf ⊢
  exact ite_of_fst_ne _ _ _ (fun h0 => h (hf.mp h0))

theorem res2048_key_of_ne (k : occ_rsa2048_key) (n d : List Byte)
    (h : ¬(n.length ≤ 256 ∧ effBits n = 2048 ∧ d.length ≤ 256 ∧
      effBits d ≤ 2048)) :
    occ_rsa2048_init_key k n d = (-1, k) := by
  have hf := fst2048_key k n d
  unfold occ_rsa2048_init_key at hf ⊢
  exact ite_of_fst_ne _ _ _ (fun h0 => h (hf.mp h0))

theorem res1024_crt_of_ne (k : occ_rsa1024_crt_key) (p q dp dq qi : List Byte)
    (h : ¬(p.length ≤ 64 ∧ effBits p = 512 ∧ q.length ≤ 64 ∧ effBits q = 512 ∧
      dp.length ≤ 64 ∧ effBits dp ≤ 512 ∧ dq.length ≤ 64 ∧ effBits dq ≤ 512 ∧
      qi.length ≤ 64 ∧ effBits qi ≤ 512)) :
    occ_rsa1024_init_crt_key k p q dp dq qi = (-1, k) := by
  have hf := fst1024_crt k p q dp dq qi
  unfold occ_rsa1024_init_crt_key at hf ⊢
  exact ite_of_fst_ne _ _ _ (fun h0 => h (hf.mp h0))

theorem res2048_crt_of_ne (k : occ_rsa2048_crt_key) (p q dp dq qi : List Byte)
    (h : ¬(p.length ≤ 128 ∧ effBits p = 1024 ∧ q.length ≤ 128 ∧
      effBits q = 1024 ∧ dp.length ≤ 128 ∧ effBits dp ≤ 1024 ∧
      dq.length ≤ 128 ∧ effBits dq ≤ 1024 ∧ qi.length ≤ 128 ∧
      effBits qi ≤ 1024)) :
    occ_rsa2048_init_crt_key k p q dp dq qi = (-1, k) := by
  have hf := fst2048_crt k p q dp dq qi
  unfold occ_rsa2048_init_crt_key at hf ⊢
  exact ite_of_fst_ne _ _ _ (fun h0 => h (hf.mp h0))

theorem stripZeros_cons_ne (b : Byte) (t : List Byte) (h : b ≠ 0) :
    stripZeros (b :: t) = b :: t := by
  have : (b == (0 : Byte)) = false := by simpa using h
  simp [stripZeros, List.dropWhile, this]

theorem bitsOfByte_of_ge (b : Byte) (h : 128 ≤ b.val) : bitsOfByte b = 8 := by
  unfold bitsOfByte
  rw [if_pos h]

theorem effBits_top_byte (b : Byte) (t : List Byte) (h : 128 ≤ b.val) :
    effBits (b :: t) = 8 * t.length + 8 := by
  have hb : b ≠ 0 := by
    intro h0
    rw [h0] at h
    simp at h
  rw [effBits, stripZeros_cons_ne b t hb]
  show 8 * t.length + bitsOfByte b = 8 * t.length + 8
  rw [bitsOfByte_of_ge b h]

theorem beVal_top_byte_le (b : Byte) (t : List Byte) (h : 128 ≤ b.val) :
    128 * 256 ^ t.length ≤ beVal (b :: t) := by
  rw [beVal_cons]
  calc 128 * 256 ^ t.length ≤ b.val * 256 ^ t.length :=
        Nat.mul_le_mul_right _ h
  _ = 256 ^ t.length * b.val := Nat.mul_comm _ _
  _ ≤ beVal t + 256 ^ t.length * b.val := Nat.le_add_left _ _

/-- Sanity link between `effBits` and the numeric value: the effective
bit-length really is the position of the most significant set bit. -/
theorem effBits_value_bounds : ∀ l : List Byte,
    beVal l < 2 ^ effBits l ∧
      (stripZeros l ≠ [] → 2 ^ (effBits l - 1) ≤ beVal l) := by
  intro l
  induction l with
  | nil => simp [beVal, leVal, effBits, stripZeros]
  | cons b t ih =>
    by_cases hb : b = 0
    · subst hb
      rw [beVal_cons_zero, effBits_cons_zero]
      refine ⟨ih.1, fun h => ih.2 ?_⟩
      rwa [stripZeros_cons_zero] at h
    · have hbb := bitsOfByte_bounds b hb
      have h1 : effBits (b :: t) = 8 * t.length + bitsOfByte b := by
        rw [effBits, stripZeros_cons_ne b t hb]
      have hv := beVal_cons b t
      have hlt := beVal_lt t
      have h256 : (256 : Nat) ^ t.length = 2 ^ (8 * t.length) := by
        rw [show (256 : Nat) = 2 ^ 8 by norm_num, ← pow_mul]
      constructor
      · rw [hv, h1, pow_add, ← h256]
        calc beVal t + 256 ^ t.length * b.val
            < 256 ^ t.length + 256 ^ t.length * b.val := by omega
        _ = 256 ^ t.length * (b.val + 1) := by ring
        _ ≤ 256 ^ t.length * 2 ^ bitsOfByte b :=
            Nat.mul_le_mul_left _ (by omega)
      · intro _
        rw [hv, h1]
        have hbits : 1 ≤ bitsOfByte b := by
          rcases Nat.eq_zero_or_pos (bitsOfByte b) with h0 | h0
          · exfalso
            rw [h0] at hbb
            have : b.val = 0 := by omega
            exact hb (Fin.ext this)
          · exact h0
        have : 8 * t.length + bitsOfByte b - 1 =
            8 * t.length + (bitsOfByte b - 1) := by omega
        rw [this, pow_add, ← h256]
        calc 256 ^ t.length * 2 ^ (bitsOfByte b - 1)
            ≤ 256 ^ t.length * b.val := Nat.mul_le_mul_left _ hbb.1
        _ ≤ beVal t + 256 ^ t.length * b.val := Nat.le_add_left _ _

theorem export_natToWords (l : List Byte) (k : Nat) (h : 8 * l.length = 32 * k) :
    exportBE l.length (natToWords k (beVal l)) = l := by
  have hlt : beVal l < (2 ^ 32) ^ k := by
    calc beVal l < 256 ^ l.length := beVal_lt l
    _ = (2 ^ 32) ^ k := by
        rw [show (256 : Nat) = 2 ^ 8 by norm_num, ← pow_mul, ← pow_mul, h]
  unfold exportBE
  rw [wordsVal_natToWords _ _ hlt]
  have hrev : natToBytesLE l.length (beVal l) = l.reverse := by
    have h2 := natToBytesLE_leVal l.reverse
    rwa [List.length_reverse] at h2
  rw [hrev, List.reverse_reverse]

theorem msw_top_bit (v : Nat) (h1 : 2 ^ 1023 ≤ v) (h2 : v < 2 ^ 1024) :
    2 ^ 31 ≤ (natToWords 32 v).getLastD 0 := by
  have hl : (natToWords 32 v).getLastD 0 = v / (2 ^ 32) ^ 31 % 2 ^ 32 :=
    natToWords_getLastD 31 v 0
  have hd1 : 2 ^ 31 ≤ v / (2 ^ 32) ^ 31 := by
    rw [Nat.le_div_iff_mul_le (by positivity)]
    calc 2 ^ 31 * (2 ^ 32) ^ 31 = 2 ^ 1023 := by norm_num [← pow_mul, ← pow_add]
    _ ≤ v := h1
  have hd2 : v / (2 ^ 32) ^ 31 < 2 ^ 32 := by
    rw [Nat.div_lt_iff_lt_mul (by positivity)]
    calc v < 2 ^ 1024 := h2
    _ = 2 ^ 32 * (2 ^ 32) ^ 31 := by norm_num [← pow_mul, ← pow_add]
  rw [hl, Nat.mod_eq_of_lt hd2]
  exact hd1

/-- An all-zero 1024-bit public key structure. -/
def PK0 : occ_rsa1024_pub_key := ⟨wordsOf 32 0⟩

/-- An all-zero 1024-bit secret key structure. -/
def K0 : occ_rsa1024_key := ⟨wordsOf 32 0, wordsOf 32 0⟩

/-- An all-zero 1024-bit CRT key structure. -/
def CK0 : occ_rsa1024_crt_key :=
  ⟨wordsOf 32 0, wordsOf 16 0, wordsOf 16 0, wordsOf 16 0, wordsOf 16 0,
   wordsOf 16 0⟩

/-- A CRT key structure agreeing with `CK0` on all five CRT fields but with
a different modulus member. -/
def CK1 : occ_rsa1024_crt_key :=
  ⟨wordsOf 32 1, wordsOf 16 0, wordsOf 16 0, wordsOf 16 0, wordsOf 16 0,
   wordsOf 16 0⟩

/-- A concrete CRT key structure with distinct field values. -/
def CK2 : occ_rsa1024_crt_key :=
  ⟨wordsOf 32 2, wordsOf 16 3, wordsOf 16 4, wordsOf 16 5, wordsOf 16 6,
   wordsOf 16 7⟩

/-- The same CRT key as `CK2`, written with different numerals. -/
def CK2' : occ_rsa1024_crt_key :=
  ⟨wordsOf 32 (1 + 1), wordsOf 16 (1 + 2), wordsOf 16 (2 + 2),
   wordsOf 16 (2 + 3), wordsOf 16 (3 + 3), wordsOf 16 (3 + 4)⟩

/-- An all-zero 2048-bit public key structure. -/
def PK0b : occ_rsa2048_pub_key := ⟨wordsOf 64 0⟩

/-- An all-zero 2048-bit secret key structure. -/
def K0b : occ_rsa2048_key := ⟨wordsOf 64 0, wordsOf 64 0⟩

/-- An all-zero 2048-bit CRT key structure. -/
def CK0b : occ_rsa2048_crt_key :=
  ⟨wordsOf 64 0, wordsOf 32 0, wordsOf 32 0, wordsOf 32 0, wordsOf 32 0,
   wordsOf 32 0⟩

/-- A 128-byte buffer of effective bit-length exactly 1024. -/
def B1024 : List Byte := (128 : Byte) :: List.replicate 127 (0 : Byte)

/-- A 256-byte buffer of effective bit-length exactly 2048. -/
def B2048 : List Byte := (128 : Byte) :: List.replicate 255 (0 : Byte)

/-- A 64-byte buffer of effective bit-length exactly 512. -/
def B512 : List Byte := (128 : Byte) :: List.replicate 63 (0 : Byte)

/-- A 128-byte buffer of effective bit-length 1023 (one bit short). -/
def B1023 : List Byte := (64 : Byte) :: List.replicate 127 (0 : Byte)

/-- A 129-byte buffer of effective bit-length 1025 (one bit over). -/
def B1025 : List Byte := (1 : Byte) :: List.replicate 128 (0 : Byte)

/-- A 256-byte buffer of effective bit-length 2047 (one bit short). -/
def B2047 : List Byte := (64 : Byte) :: List.replicate 255 (0 : Byte)

/-- A 64-byte buffer of effective bit-length 511 (one bit short). -/
def B511 : List Byte := (64 : Byte) :: List.replicate 63 (0 : Byte)

/-- A 65-byte buffer of effective bit-length 513 (one bit over). -/
def B513 : List Byte := (1 : Byte) :: List.replicate 64 (0 : Byte)

/-- A 257-byte buffer of effective bit-length 2049 (one bit over). -/
def B2049 : List Byte := (1 : Byte) :: List.replicate 256 (0 : Byte)

/-- Claim C1 (corrected): at each key size the CRT secret-key structure is
laid out as the five half-width CRT fields - two primes, two CRT exponents
and one coefficient, 16 words each at 1024 bits and 32 words each at 2048
bits - together with one additional full-key-width modulus member `n` (32
resp. 64 words); these six members determine the structure completely. -/
theorem claim_C1_crt_layout :
    (∀ k : occ_rsa1024_crt_key, k.n.val.length = 32 ∧ k.p.val.length = 16 ∧
      k.q.val.length = 16 ∧ k.dp.val.length = 16 ∧ k.dq.val.length = 16 ∧
      k.qinv.val.length = 16) ∧
    (∀ k : occ_rsa2048_crt_key, k.n.val.length = 64 ∧ k.p.val.length = 32 ∧
      k.q.val.length = 32 ∧ k.dp.val.length = 32 ∧ k.dq.val.length = 32 ∧
      k.qinv.val.length = 32) ∧
    (∀ k k' : occ_rsa1024_crt_key, k.n = k'.n → k.p = k'.p → k.q = k'.q →
      k.dp = k'.dp → k.dq = k'.dq → k.qinv = k'.qinv → k = k') ∧
    (∀ k k' : occ_rsa2048_crt_key, k.n = k'.n → k.p = k'.p → k.q = k'.q →
      k.dp = k'.dp → k.dq = k'.dq → k.qinv = k'.qinv → k = k') := by
  refine ⟨fun k => ⟨k.n.2, k.p.2, k.q.2, k.dp.2, k.dq.2, k.qinv.2⟩,
    fun k => ⟨k.n.2, k.p.2, k.q.2, k.dp.2, k.dq.2, k.qinv.2⟩, ?_, ?_⟩
  · intro k k' h1 h2 h3 h4 h5 h6
    cases k
    cases k'
    simp_all
  · intro k k' h1 h2 h3 h4 h5 h6
    cases k
    cases k'
    simp_all

/-- Claim C1 counterexample: two 1024-bit CRT key structures that agree on
both primes, both CRT exponents and the coefficient, yet differ - because
the structure also contains a modulus member beyond those five fields. -/
theorem claim_C1_counterexample :
    CK0.p = CK1.p ∧ CK0.q = CK1.q ∧ CK0.dp = CK1.dp ∧ CK0.dq = CK1.dq ∧
    CK0.qinv = CK1.qinv ∧ CK0 ≠ CK1 := by decide

/-- Claim C1 witness: the layout theorem applied at concrete structures. -/
theorem claim_C1_witness : CK2 = CK2' :=
  claim_C1_crt_layout.2.2.1 CK2 CK2' (by decide) (by decide) (by decide)
    (by decide) (by decide) (by decide)

/-- Claim C9 (confirmed): the public exponent is the fixed constant 65537
(2^16 + 1); no assembly entry point takes it as a parameter and no key
structure stores it - public keys are determined by the modulus alone, and
plain secret keys by modulus and secret exponent alone. -/
theorem claim_C9_pub_exp :
    PUB_EXP = 65537 ∧ PUB_EXP = 2 ^ 16 + 1 ∧
    (∀ k k' : occ_rsa1024_pub_key, k.n = k'.n → k = k') ∧
    (∀ k k' : occ_rsa2048_pub_key, k.n = k'.n → k = k') ∧
    (∀ k k' : occ_rsa1024_key, k.n = k'.n → k.d = k'.d → k = k') ∧
    (∀ k k' : occ_rsa2048_key, k.n = k'.n → k.d = k'.d → k = k') := by
  refine ⟨rfl, by norm_num [PUB_EXP], ?_, ?_, ?_, ?_⟩ <;>
    · intro k k'
      intros
      cases k
      cases k'
      simp_all

/-- Claim C9 witness: the determinedness theorem applied at concrete
keys. -/
theorem claim_C9_witness :
    occ_rsa1024_pub_key.mk (wordsOf 32 5) =
      occ_rsa1024_pub_key.mk (wordsOf 32 (2 + 3)) ∧
    occ_rsa1024_key.mk (wordsOf 32 5) (wordsOf 32 6) =
      occ_rsa1024_key.mk (wordsOf 32 (2 + 3)) (wordsOf 32 (3 + 3)) :=
  ⟨claim_C9_pub_exp.2.2.1 _ _ (by decide),
   claim_C9_pub_exp.2.2.2.2.1 _ _ (by decide) (by decide)⟩

/-- Claim C10 (confirmed): each CRT structure carries, beyond the five
half-width CRT fields, a full-key-width modulus member `n` (32 words at
1024 bits, 64 at 2048), while `init_crt_key` takes only the five CRT
buffers; after any call the `n` member equals its prior value, so it is
never supplied by the caller and is left unpopulated by this layer. -/
theorem claim_C10_crt_modulus :
    (∀ k : occ_rsa1024_crt_key, k.n.val.length = 32) ∧
    (∀ k : occ_rsa2048_crt_key, k.n.val.length = 64) ∧
    (∀ (k : occ_rsa1024_crt_key) (p q dp dq qi : List Byte),
      ((occ_rsa1024_init_crt_key k p q dp dq qi).snd).n = k.n) ∧
    (∀ (k : occ_rsa2048_crt_key) (p q dp dq qi : List Byte),
      ((occ_rsa2048_init_crt_key k p q dp dq qi).snd).n = k.n) := by
  refine ⟨fun k => k.n.2, fun k => k.n.2, ?_, ?_⟩
  · intro k p q dp dq qi
    unfold occ_rsa1024_init_crt_key
    split <;> rfl
  · intro k p q dp dq qi
    unfold occ_rsa2048_init_crt_key
    split <;> rfl

/-- Claim C2 (corrected): every key-assembly entry point returns 0 or -1
and nothing else, and it returns 0 exactly when every supplied field passes
its validation rule, which comprises the byte-capacity bound on the raw
declared length together with the effective-bit-length rule after
leading-zero stripping (exact width for moduli and primes, upper bound for
exponents and the coefficient). -/
theorem claim_C2_result_contract :
    ∀ (k1 : occ_rsa1024_pub_key) (k2 : occ_rsa1024_key)
      (k3 : occ_rsa1024_crt_key) (k4 : occ_rsa2048_pub_key)
      (k5 : occ_rsa2048_key) (k6 : occ_rsa2048_crt_key)
      (n d p q dp dq qi : List Byte),
      ((occ_rsa1024_init_pub_key k1 n).fst = 0 ∨
        (occ_rsa1024_init_pub_key k1 n).fst = -1) ∧
      ((occ_rsa1024_init_pub_key k1 n).fst = 0 ↔
        n.length ≤ 128 ∧ effBits n = 1024) ∧
      ((occ_rsa1024_init_key k2 n d).fst = 0 ∨
        (occ_rsa1024_init_key k2 n d).fst = -1) ∧
      ((occ_rsa1024_init_key k2 n d).fst = 0 ↔
        n.length ≤ 128 ∧ effBits n = 1024 ∧ d.length ≤ 128 ∧
          effBits d ≤ 1024) ∧
      ((occ_rsa1024_init_crt_key k3 p q dp dq qi).fst = 0 ∨
        (occ_rsa1024_init_crt_key k3 p q dp dq qi).fst = -1) ∧
      ((occ_rsa1024_init_crt_key k3 p q dp dq qi).fst = 0 ↔
        p.length ≤ 64 ∧ effBits p = 512 ∧ q.length ≤ 64 ∧ effBits q = 512 ∧
        dp.length ≤ 64 ∧ effBits dp ≤ 512 ∧ dq.length ≤ 64 ∧
        effBits dq ≤ 512 ∧ qi.length ≤ 64 ∧ effBits qi ≤ 512) ∧
      ((occ_rsa2048_init_pub_key k4 n).fst = 0 ∨
        (occ_rsa2048_init_pub_key k4 n).fst = -1) ∧
      ((occ_rsa2048_init_pub_key k4 n).fst = 0 ↔
        n.length ≤ 256 ∧ effBits n = 2048) ∧
      ((occ_rsa2048_init_key k5 n d).fst = 0 ∨
        (occ_rsa2048_init_key k5 n d).fst = -1) ∧
      ((occ_rsa2048_init_key k5 n d).fst = 0 ↔
        n.length ≤ 256 ∧ effBits n = 2048 ∧ d.length ≤ 256 ∧
          effBits d ≤ 2048) ∧
      ((occ_rsa2048_init_crt_key k6 p q dp dq qi).fst = 0 ∨
        (occ_rsa2048_init_crt_key k6 p q dp dq qi).fst = -1) ∧
      ((occ_rsa2048_init_crt_key k6 p q dp dq qi).fst = 0 ↔
        p.length ≤ 128 ∧ effBits p = 1024 ∧ q.length ≤ 128 ∧
        effBits q = 1024 ∧ dp.length ≤ 128 ∧ effBits dp ≤ 1024 ∧
        dq.length ≤ 128 ∧ effBits dq ≤ 1024 ∧ qi.length ≤ 128 ∧
        effBits qi ≤ 1024) := by
  intro k1 k2 k3 k4 k5 k6 n d p q dp dq qi
  exact ⟨code1024_pub k1 n, fst1024_pub k1 n, code1024_key k2 n d,
    fst1024_key k2 n d, code1024_crt k3 p q dp dq qi,
    fst1024_crt k3 p q dp dq qi, code2048_pub k4 n, fst2048_pub k4 n,
    code2048_key k5 n d, fst2048_key k5 n d, code2048_crt k6 p q dp dq qi,
    fst2048_crt k6 p q dp dq qi⟩

set_option maxRecDepth 100000 in
/-- Claim C2 counterexample: with a valid 2048-bit modulus and a 257-byte
all-zero exponent buffer the call returns -1, although after leading-zero
stripping no field violates its width rule as the claim enumerates it (the
exponent strips to effective bit-length 0, within its bound, and the
modulus is exact); the rejection comes from the raw byte-capacity check. -/
theorem claim_C2_counterexample :
    effBits B2048 = 2048 ∧ B2048.length = 256 ∧
    effBits (List.replicate 257 (0 : Byte)) = 0 ∧
    (occ_rsa2048_init_key K0b B2048 (List.replicate 257 (0 : Byte))).fst =
      -1 := by decide

/-- Claim C3 (confirmed): for every fixed-width field, leading zero bytes
are permitted and stripped (they change neither the effective bit-length
nor the call's result, capacity permitting), the call succeeds only when
the effective bit-length equals the expected width exactly, and an
effective bit-length one bit short of or one bit over the width is
rejected with -1. -/
theorem claim_C3_exact_width :
    ∀ (k1 : occ_rsa1024_pub_key) (k2 : occ_rsa1024_key)
      (k3 : occ_rsa1024_crt_key) (k4 : occ_rsa2048_pub_key)
      (n d p q dp dq qi : List Byte),
      ((occ_rsa1024_init_pub_key k1 n).fst = 0 ↔
        n.length ≤ 128 ∧ effBits n = 1024) ∧
      ((occ_rsa2048_init_pub_key k4 n).fst = 0 ↔
        n.length ≤ 256 ∧ effBits n = 2048) ∧
      ((occ_rsa1024_init_key k2 n d).fst = 0 → effBits n = 1024) ∧
      ((occ_rsa1024_init_crt_key k3 p q dp dq qi).fst = 0 →
        effBits p = 512 ∧ effBits q = 512) ∧
      (effBits n = 1023 ∨ effBits n = 1025 →
        (occ_rsa1024_init_pub_key k1 n).fst = -1) ∧
      (effBits n = 2047 ∨ effBits n = 2049 →
        (occ_rsa2048_init_pub_key k4 n).fst = -1) ∧
      (effBits p = 511 ∨ effBits p = 513 →
        (occ_rsa1024_init_crt_key k3 p q dp dq qi).fst = -1) ∧
      effBits ((0 : Byte) :: n) = effBits n ∧
      (n.length + 1 ≤ 128 →
        occ_rsa1024_init_pub_key k1 ((0 : Byte) :: n) =
          occ_rsa1024_init_pub_key k1 n) := by
  intro k1 k2 k3 k4 n d p q dp dq qi
  refine ⟨fst1024_pub k1 n, fst2048_pub k4 n, ?_, ?_, ?_, ?_, ?_,
    effBits_cons_zero n, ?_⟩
  · intro h
    exact ((fst1024_key k2 n d).mp h).2.1
  · intro h
    have hr := (fst1024_crt k3 p q dp dq qi).mp h
    exact ⟨hr.2.1, hr.2.2.2.1⟩
  · intro h
    rcases code1024_pub k1 n with h0 | h0
    · have := ((fst1024_pub k1 n).mp h0).2
      rcases h with h | h <;> omega
    · exact h0
  · intro h
    rcases code2048_pub k4 n with h0 | h0
    · have := ((fst2048_pub k4 n).mp h0).2
      rcases h with h | h <;> omega
    · exact h0
  · intro h
    rcases code1024_crt k3 p q dp dq qi with h0 | h0
    · have := ((fst1024_crt k3 p q dp dq qi).mp h0).2.1
      rcases h with h | h <;> omega
    · exact h0
  · intro hlen
    have he : effBits ((0 : Byte) :: n) = effBits n := effBits_cons_zero n
    have hv : beVal ((0 : Byte) :: n) = beVal n := beVal_cons_zero n
    have hc : (1024 : Nat) / 8 = 128 := by norm_num
    have h1 : ((0 : Byte) :: n).length ≤ 1024 / 8 := by
      rw [hc, List.length_cons]
      omega
    have h2 : n.length ≤ 1024 / 8 := by
      rw [hc]
      omega
    have hok : okExact 1024 ((0 : Byte) :: n) = okExact 1024 n := by
      simp [okExact, he, h1, h2]
      omega
    unfold occ_rsa1024_init_pub_key
    rw [hok, hv]

set_option maxRecDepth 100000 in
/-- Claim C3 witness: rejection one bit short and one bit over at each
size, stripping at a concrete prime, and leading-zero insensitivity at a
concrete buffer. -/
theorem claim_C3_witness :
    (occ_rsa1024_init_pub_key PK0 B1023).fst = -1 ∧
    (occ_rsa2048_init_pub_key PK0b B2047).fst = -1 ∧
    (occ_rsa1024_init_crt_key CK0 B511 B512 [] [] []).fst = -1 ∧
    (effBits B512 = 512 ∧ effBits B512 = 512) ∧
    occ_rsa1024_init_pub_key PK0 ((0 : Byte) :: List.replicate 127 (1 : Byte)) =
      occ_rsa1024_init_pub_key PK0 (List.replicate 127 (1 : Byte)) :=
  ⟨(claim_C3_exact_width PK0 K0 CK0 PK0b B1023 [] B511 B512 [] [] []
      ).2.2.2.2.1 (Or.inl (by decide)),
   (claim_C3_exact_width PK0 K0 CK0 PK0b B2047 [] B511 B512 [] [] []
      ).2.2.2.2.2.1 (Or.inl (by decide)),
   (claim_C3_exact_width PK0 K0 CK0 PK0b B1023 [] B511 B512 [] [] []
      ).2.2.2.2.2.2.1 (Or.inl (by decide)),
   (claim_C3_exact_width PK0 K0 CK0 PK0b B1023 [] B512 B512 [] [] []
      ).2.2.2.1 (by decide),
   (claim_C3_exact_width PK0 K0 CK0 PK0b (List.replicate 127 (1 : Byte)) []
      B511 B512 [] [] []).2.2.2.2.2.2.2.2 (by decide)⟩

/-- Claim C4 (corrected): bounded fields (secret exponent, CRT exponents,
CRT coefficient) accept any input within the field's byte capacity whose
effective bit-length is at most the bound - including all-zero inputs,
with no non-zero check - and reject with -1 any input whose effective
bit-length exceeds the bound by even one bit, or whose raw declared byte
length exceeds the capacity. -/
theorem claim_C4_bounded_fields :
    ∀ (k2 : occ_rsa1024_key) (k3 : occ_rsa1024_crt_key)
      (k5 : occ_rsa2048_key) (n d p q dp dq qi : List Byte),
      ((occ_rsa1024_init_key k2 n d).fst = 0 ↔
        n.length ≤ 128 ∧ effBits n = 1024 ∧ d.length ≤ 128 ∧
          effBits d ≤ 1024) ∧
      (n.length ≤ 128 → effBits n = 1024 → ∀ m, m ≤ 128 →
        (occ_rsa1024_init_key k2 n (List.replicate m (0 : Byte))).fst = 0) ∧
      (effBits d = 1025 → (occ_rsa1024_init_key k2 n d).fst = -1) ∧
      (128 < d.length → (occ_rsa1024_init_key k2 n d).fst = -1) ∧
      ((occ_rsa1024_init_crt_key k3 p q dp dq qi).fst = 0 →
        effBits dp ≤ 512 ∧ effBits dq ≤ 512 ∧ effBits qi ≤ 512) ∧
      (effBits dp = 513 →
        (occ_rsa1024_init_crt_key k3 p q dp dq qi).fst = -1) ∧
      (effBits d = 2049 → (occ_rsa2048_init_key k5 n d).fst = -1) := by
  intro k2 k3 k5 n d p q dp dq qi
  refine ⟨fst1024_key k2 n d, ?_, ?_, ?_, ?_, ?_, ?_⟩
  · intro hl he m hm
    rw [fst1024_key]
    refine ⟨hl, he, ?_, ?_⟩
    · simpa using hm
    · rw [effBits_replicate_zero]
      omega
  · intro h
    rcases code1024_key k2 n d with h0 | h0
    · have := ((fst1024_key k2 n d).mp h0).2.2.2
      omega
    · exact h0
  · intro h
    rcases code1024_key k2 n d with h0 | h0
    · have := ((fst1024_key k2 n d).mp h0).2.2.1
      omega
    · exact h0
  · intro h
    have hr := (fst1024_crt k3 p q dp dq qi).mp h
    exact ⟨hr.2.2.2.2.2.1, hr.2.2.2.2.2.2.2.1, hr.2.2.2.2.2.2.2.2.2⟩
  · intro h
    rcases code1024_crt k3 p q dp dq qi with h0 | h0
    · have := ((fst1024_crt k3 p q dp dq qi).mp h0).2.2.2.2.2.1
      omega
    · exact h0
  · intro h
    rcases code2048_key k5 n d with h0 | h0
    · have := ((fst2048_key k5 n d).mp h0).2.2.2
      omega
    · exact h0

set_option maxRecDepth 100000 in
/-- Claim C4 counterexample: a 129-byte all-zero exponent buffer has
effective bit-length 0, well within the 1024-bit bound, yet the call is
rejected with -1 (the raw declared length exceeds the 128-byte capacity),
so acceptance is not implied by the effective bit-length alone. -/
theorem claim_C4_counterexample :
    effBits (List.replicate 129 (0 : Byte)) = 0 ∧
    effBits B1024 = 1024 ∧ B1024.length = 128 ∧
    (occ_rsa1024_init_key K0 B1024 (List.replicate 129 (0 : Byte))).fst =
      -1 := by decide

set_option maxRecDepth 100000 in
/-- Claim C4 witness: zero-valued exponent accepted, one bit over the
bound rejected at both sizes and in the CRT coefficient position. -/
theorem claim_C4_witness :
    (occ_rsa1024_init_key K0 B1024 (List.replicate 100 (0 : Byte))).fst = 0 ∧
    (occ_rsa1024_init_key K0 B1024 B1025).fst = -1 ∧
    (occ_rsa1024_init_crt_key CK0 B512 B512 B513 [] []).fst = -1 ∧
    (occ_rsa2048_init_key K0b B2048 B2049).fst = -1 :=
  ⟨(claim_C4_bounded_fields K0 CK0 K0b B1024 [] [] [] [] [] []).2.1
      (by decide) (by decide) 100 (by decide),
   (claim_C4_bounded_fields K0 CK0 K0b B1024 B1025 [] [] [] [] []).2.2.1
      (by decide),
   (claim_C4_bounded_fields K0 CK0 K0b [] [] B512 B512 B513 [] []).2.2.2.2.2.1
      (by decide),
   (claim_C4_bounded_fields K0 CK0 K0b B2048 B2049 [] [] [] [] []).2.2.2.2.2.2
      (by decide)⟩

/-- Claim C5 (confirmed): if any field of an assembly call fails its
validation rule the call returns -1 and the output structure is returned
untouched, so no field's data - including fields that validated before the
failing one - is observable as initialized. -/
theorem claim_C5_atomicity :
    ∀ (k1 : occ_rsa1024_pub_key) (k2 : occ_rsa1024_key)
      (k3 : occ_rsa1024_crt_key) (k4 : occ_rsa2048_pub_key)
      (k5 : occ_rsa2048_key) (k6 : occ_rsa2048_crt_key)
      (n d p q dp dq qi : List Byte),
      (¬(n.length ≤ 128 ∧ effBits n = 1024) →
        occ_rsa1024_init_pub_key k1 n = (-1, k1)) ∧
      (¬(n.length ≤ 128 ∧ effBits n = 1024 ∧ d.length ≤ 128 ∧
          effBits d ≤ 1024) →
        occ_rsa1024_init_key k2 n d = (-1, k2)) ∧
      (¬(p.length ≤ 64 ∧ effBits p = 512 ∧ q.length ≤ 64 ∧ effBits q = 512 ∧
          dp.length ≤ 64 ∧ effBits dp ≤ 512 ∧ dq.length ≤ 64 ∧
          effBits dq ≤ 512 ∧ qi.length ≤ 64 ∧ effBits qi ≤ 512) →
        occ_rsa1024_init_crt_key k3 p q dp dq qi = (-1, k3)) ∧
      (¬(n.length ≤ 256 ∧ effBits n = 2048) →
        occ_rsa2048_init_pub_key k4 n = (-1, k4)) ∧
      (¬(n.length ≤ 256 ∧ effBits n = 2048 ∧ d.length ≤ 256 ∧
          effBits d ≤ 2048) →
        occ_rsa2048_init_key k5 n d = (-1, k5)) ∧
      (¬(p.length ≤ 128 ∧ effBits p = 1024 ∧ q.length ≤ 128 ∧
          effBits q = 1024 ∧ dp.length ≤ 128 ∧ effBits dp ≤ 1024 ∧
          dq.length ≤ 128 ∧ effBits dq ≤ 1024 ∧ qi.length ≤ 128 ∧
          effBits qi ≤ 1024) →
        occ_rsa2048_init_crt_key k6 p q dp dq qi = (-1, k6)) := by
  intro k1 k2 k3 k4 k5 k6 n d p q dp dq qi
  exact ⟨res1024_pub_of_ne k1 n, res1024_key_of_ne k2 n d,
    res1024_crt_of_ne k3 p q dp dq qi, res2048_pub_of_ne k4 n,
    res2048_key_of_ne k5 n d, res2048_crt_of_ne k6 p q dp dq qi⟩

set_option maxRecDepth 100000 in
/-- Claim C5 witness: a CRT call whose first two fields validate but whose
third fails leaves the structure untouched, as does a secret-key call with
a short modulus. -/
theorem claim_C5_witness :
    occ_rsa1024_init_crt_key CK0 B512 B512 B513 [] [] = (-1, CK0) ∧
    occ_rsa1024_init_key K0 B1023 [] = (-1, K0) :=
  ⟨(claim_C5_atomicity PK0 K0 CK0 PK0b K0b CK0b B1023 [] B512 B512 B513 []
      []).2.2.1 (by decide),
   (claim_C5_atomicity PK0 K0 CK0 PK0b K0b CK0b B1023 [] B512 B512 B513 []
      []).2.1 (by decide)⟩

/-- Claim C6 (corrected): for every bounded field an all-zero buffer of the
field's full byte length is accepted - this layer checks no numeric
validity such as non-zero-ness or primality - but for fixed-width fields
(moduli, primes) an all-zero buffer of the correct byte length is rejected,
since its effective bit-length is 0 rather than the required exact
width. -/
theorem claim_C6_zero_buffers :
    ∀ (k1 : occ_rsa1024_pub_key) (k2 : occ_rsa1024_key)
      (k3 : occ_rsa1024_crt_key) (k4 : occ_rsa2048_pub_key)
      (n p q : List Byte),
      (n.length ≤ 128 → effBits n = 1024 →
        (occ_rsa1024_init_key k2 n (List.replicate 128 (0 : Byte))).fst =
          0) ∧
      (p.length ≤ 64 → effBits p = 512 → q.length ≤ 64 → effBits q = 512 →
        (occ_rsa1024_init_crt_key k3 p q (List.replicate 64 (0 : Byte))
          (List.replicate 64 (0 : Byte))
          (List.replicate 64 (0 : Byte))).fst = 0) ∧
      (occ_rsa1024_init_pub_key k1 (List.replicate 128 (0 : Byte))).fst =
        -1 ∧
      (occ_rsa2048_init_pub_key k4 (List.replicate 256 (0 : Byte))).fst =
        -1 := by
  intro k1 k2 k3 k4 n p q
  refine ⟨?_, ?_, ?_, ?_⟩
  · intro hl he
    rw [fst1024_key]
    refine ⟨hl, he, by simp, ?_⟩
    rw [effBits_replicate_zero]
    omega
  · intro hp1 hp2 hq1 hq2
    rw [fst1024_crt]
    refine ⟨hp1, hp2, hq1, hq2, by simp, ?_, by simp, ?_, by simp, ?_⟩ <;>
      · rw [effBits_replicate_zero]
        omega
  · rcases code1024_pub k1 (List.replicate 128 (0 : Byte)) with h0 | h0
    · have := ((fst1024_pub k1 _).mp h0).2
      rw [effBits_replicate_zero] at this
      omega
    · exact h0
  · rcases code2048_pub k4 (List.replicate 256 (0 : Byte)) with h0 | h0
    · have := ((fst2048_pub k4 _).mp h0).2
      rw [effBits_replicate_zero] at this
      omega
    · exact h0

set_option maxRecDepth 100000 in
/-- Claim C6 counterexample: an all-zero modulus buffer of the correct
128-byte length is rejected by the 1024-bit public-key assembler. -/
theorem claim_C6_counterexample :
    (List.replicate 128 (0 : Byte)).length = 128 ∧
    (occ_rsa1024_init_pub_key PK0 (List.replicate 128 (0 : Byte))).fst =
      -1 := by decide

set_option maxRecDepth 100000 in
/-- Claim C6 witness: all-zero bounded fields of full byte length accepted
alongside concrete valid fixed-width fields. -/
theorem claim_C6_witness :
    (occ_rsa1024_init_key K0 B1024 (List.replicate 128 (0 : Byte))).fst =
      0 ∧
    (occ_rsa1024_init_crt_key CK0 B512 B512 (List.replicate 64 (0 : Byte))
      (List.replicate 64 (0 : Byte)) (List.replicate 64 (0 : Byte))).fst =
      0 :=
  ⟨(claim_C6_zero_buffers PK0 K0 CK0 PK0b B1024 B512 B512).1 (by decide)
      (by decide),
   (claim_C6_zero_buffers PK0 K0 CK0 PK0b B1024 B512 B512).2.1 (by decide)
      (by decide) (by decide) (by decide)⟩

/-- Claim C7 (confirmed): a buffer whose raw declared byte length exceeds
the maximum representable for the target field is rejected with -1
regardless of its content; in particular a 2048-bit-sized (256-byte)
buffer fed to the 1024-bit assembler is rejected, never truncated. -/
theorem claim_C7_oversize :
    ∀ (k1 : occ_rsa1024_pub_key) (k2 : occ_rsa1024_key)
      (k3 : occ_rsa1024_crt_key) (k4 : occ_rsa2048_pub_key)
      (k5 : occ_rsa2048_key) (k6 : occ_rsa2048_crt_key)
      (n d p q dp dq qi : List Byte),
      (128 < n.length → (occ_rsa1024_init_pub_key k1 n).fst = -1) ∧
      (128 < d.length → (occ_rsa1024_init_key k2 n d).fst = -1) ∧
      (64 < p.length →
        (occ_rsa1024_init_crt_key k3 p q dp dq qi).fst = -1) ∧
      (64 < qi.length →
        (occ_rsa1024_init_crt_key k3 p q dp dq qi).fst = -1) ∧
      (256 < n.length → (occ_rsa2048_init_pub_key k4 n).fst = -1) ∧
      (256 < d.length → (occ_rsa2048_init_key k5 n d).fst = -1) ∧
      (128 < dp.length →
        (occ_rsa2048_init_crt_key k6 p q dp dq qi).fst = -1) ∧
      (n.length = 256 → (occ_rsa1024_init_pub_key k1 n).fst = -1) := by
  intro k1 k2 k3 k4 k5 k6 n d p q dp dq qi
  refine ⟨?_, ?_, ?_, ?_, ?_, ?_, ?_, ?_⟩
  · intro h
    rcases code1024_pub k1 n with h0 | h0
    · have := ((fst1024_pub k1 n).mp h0).1
      omega
    · exact h0
  · intro h
    rcases code1024_key k2 n d with h0 | h0
    · have := ((fst1024_key k2 n d).mp h0).2.2.1
      omega
    · exact h0
  · intro h
    rcases code1024_crt k3 p q dp dq qi with h0 | h0
    · have := ((fst1024_crt k3 p q dp dq qi).mp h0).1
      omega
    · exact h0
  · intro h
    rcases code1024_crt k3 p q dp dq qi with h0 | h0
    · have := ((fst1024_crt k3 p q dp dq qi).mp h0).2.2.2.2.2.2.2.2.1
      omega
    · exact h0
  · intro h
    rcases code2048_pub k4 n with h0 | h0
    · have := ((fst2048_pub k4 n).mp h0).1
      omega
    · exact h0
  · intro h
    rcases code2048_key k5 n d with h0 | h0
    · have := ((fst2048_key k5 n d).mp h0).2.2.1
      omega
    · exact h0
  · intro h
    rcases code2048_crt k6 p q dp dq qi with h0 | h0
    · have := ((fst2048_crt k6 p q dp dq qi).mp h0).2.2.2.2.1
      omega
    · exact h0
  · intro h
    rcases code1024_pub k1 n with h0 | h0
    · have := ((fst1024_pub k1 n).mp h0).1
      omega
    · exact h0

set_option maxRecDepth 100000 in
/-- Claim C7 witness: a 256-byte buffer in the 1024-bit public assembler,
a 129-byte buffer of non-zero content, and a 65-byte prime buffer are all
rejected. -/
theorem claim_C7_witness :
    (occ_rsa1024_init_pub_key PK0 B2048).fst = -1 ∧
    (occ_rsa1024_init_pub_key PK0 (List.replicate 129 (1 : Byte))).fst =
      -1 ∧
    (occ_rsa1024_init_crt_key CK0 (List.replicate 65 (1 : Byte)) B512 [] []
      []).fst = -1 :=
  ⟨(claim_C7_oversize PK0 K0 CK0 PK0b K0b CK0b B2048 [] [] [] [] [] []
      ).2.2.2.2.2.2.2 (by decide),
   (claim_C7_oversize PK0 K0 CK0 PK0b K0b CK0b
      (List.replicate 129 (1 : Byte)) [] [] [] [] [] []).1 (by decide),
   (claim_C7_oversize PK0 K0 CK0 PK0b K0b CK0b B2048 []
      (List.replicate 65 (1 : Byte)) B512 [] [] []).2.2.1 (by decide)⟩

/-- Claim C8 (confirmed): a big-endian byte sequence of exactly the
expected 128-byte length for a 1024-bit modulus whose most significant bit
is set imports successfully alongside any valid exponent; the stored word
array is the little-endian 32-bit word representation of the value, its
most significant word has its top bit set, and re-exporting the word array
in big-endian order reproduces the original bytes exactly. -/
theorem claim_C8_roundtrip :
    ∀ (k2 : occ_rsa1024_key) (b : Byte) (t d : List Byte),
      t.length = 127 → 128 ≤ b.val → d.length ≤ 128 → effBits d ≤ 1024 →
      (occ_rsa1024_init_key k2 (b :: t) d).fst = 0 ∧
      ((occ_rsa1024_init_key k2 (b :: t) d).snd).n.val =
        natToWords 32 (beVal (b :: t)) ∧
      2 ^ 31 ≤ (((occ_rsa1024_init_key k2 (b :: t) d).snd).n.val).getLastD
        0 ∧
      exportBE 128 (((occ_rsa1024_init_key k2 (b :: t) d).snd).n.val) =
        b :: t := by
  intro k2 b t d ht hb hd1 hd2
  have heff : effBits (b :: t) = 1024 := by
    rw [effBits_top_byte b t hb, ht]
  have hlen : (b :: t).length = 128 := by
    rw [List.length_cons, ht]
  have hfst : (occ_rsa1024_init_key k2 (b :: t) d).fst = 0 := by
    rw [fst1024_key]
    exact ⟨by omega, heff, hd1, hd2⟩
  have hcond : (okExact 1024 (b :: t) && okBounded 1024 d) = true := by
    rw [Bool.and_eq_true, okExact_iff, okBounded_iff]
    refine ⟨⟨?_, heff⟩, ?_, hd2⟩
    · rw [hlen]
    · norm_num
      omega
  have hsnd : ((occ_rsa1024_init_key k2 (b :: t) d).snd).n.val =
      natToWords 32 (beVal (b :: t)) := by
    unfold occ_rsa1024_init_key
    rw [if_pos hcond]
    rfl
  have hlow : 2 ^ 1023 ≤ beVal (b :: t) := by
    have h := beVal_top_byte_le b t hb
    rw [ht] at h
    calc (2 : Nat) ^ 1023 = 128 * 256 ^ 127 := by norm_num
    _ ≤ beVal (b :: t) := h
  have hhigh : beVal (b :: t) < 2 ^ 1024 := by
    have h := beVal_lt (b :: t)
    rw [hlen] at h
    calc beVal (b :: t) < 256 ^ 128 := h
    _ = 2 ^ 1024 := by norm_num
  refine ⟨hfst, hsnd, ?_, ?_⟩
  · rw [hsnd]
    exact msw_top_bit _ hlow hhigh
  · rw [hsnd]
    have h := export_natToWords (b :: t) 32 (by rw [hlen])
    rwa [hlen] at h

set_option maxRecDepth 100000 in
/-- Claim C8 witness: the concrete 128-byte modulus with top byte 0x80 and
a 64-byte exponent import successfully and export back to the original
bytes. -/
theorem claim_C8_witness :
    (occ_rsa1024_init_key K0 B1024 (List.replicate 64 (1 : Byte))).fst =
      0 ∧
    2 ^ 31 ≤ (((occ_rsa1024_init_key K0 B1024
      (List.replicate 64 (1 : Byte))).snd).n.val).getLastD 0 ∧
    exportBE 128 (((occ_rsa1024_init_key K0 B1024
      (List.replicate 64 (1 : Byte))).snd).n.val) = B1024 := by
  have h := claim_C8_roundtrip K0 (128 : Byte)
    (List.replicate 127 (0 : Byte)) (List.replicate 64 (1 : Byte))
    (by simp) (by decide) (by simp) (by decide)
  exact ⟨h.1, h.2.2.1, h.2.2.2⟩
